import Mathlib

/-!
Shallow embedding of the gridghost Modbus scanner core
(`modbus_scan.py`): address normalization, value decoding helpers,
point decoding, probing and range discovery, together with theorems
settling the specification claims.

Machine words are modelled as `Nat` with explicit masking; display
addresses are `Int` (Python integers); the float `scale`/`offset`
fields are modelled as rationals; the Protocol Session is an oracle
mapping (kind, address, count) to a response.
-/

namespace GridGhost

/-- Response of one read issued to the Protocol Session: register words,
coil/discrete bits, a protocol fault (`isError()` true, carrying the
printed message), or a transport no-response (`ModbusIOException`). -/
inductive Resp where
  | regs (vals : List Nat)
  | bits (vals : List Bool)
  | fault (msg : String)
  | noResponse
  deriving DecidableEq

/-- The Protocol Session oracle: kind, start address, count ↦ response. -/
def Client : Type := String → Int → Int → Resp

/-- Python `str.lower()`, character by character (kernel-reducible model
of `String.toLower`). -/
def lowerStr (s : String) : String := ⟨s.data.map Char.toLower⟩

/-- Embedding of `normalize_address(kind, address, niagara)`. -/
def normalize_address (kind : String) (address : Int) (niagara : Bool) :
    String × Int :=
  if ¬ niagara then (kind, address)
  else
    let kind := if kind = "coil" then "coils" else kind
    if kind = "input" ∧ 30001 ≤ address ∧ address ≤ 39999 then
      ("input", address - 30001)
    else if kind = "holding" ∧ 40001 ≤ address ∧ address ≤ 49999 then
      ("holding", address - 40001)
    else if kind = "discrete" ∧ 10001 ≤ address ∧ address ≤ 19999 then
      ("discrete", address - 10001)
    else if kind = "coils" then
      if 1 ≤ address ∧ address ≤ 9999 then ("coils", address - 1)
      else ("coils", address)
    else (kind, address)

/-- Embedding of `to_int16(v)`: mask to 16 bits, two's-complement sign. -/
def to_int16 (v : Nat) : Int :=
  let v := v &&& 0xFFFF
  if v &&& 0x8000 ≠ 0 then (v : Int) - 0x10000 else (v : Int)

/-- Embedding of `to_uint16(v)`. -/
def to_uint16 (v : Nat) : Nat := v &&& 0xFFFF

/-- Embedding of `get_bit(v, bit)`: 1 if `(v >> bit) & 1` is truthy. -/
def get_bit (v : Nat) (bit : Nat) : Nat :=
  if (v >>> bit) &&& 1 ≠ 0 then 1 else 0

/-- Embedding of `get_bitfield(v, start, length)`. -/
def get_bitfield (v : Nat) (start length : Nat) : Nat :=
  let mask := (1 <<< length) - 1
  (v >>> start) &&& mask

/-- Embedding of one `points.json` record (the dict `p`): optional fields
default exactly as the Python `p.get(...)` calls do; `scale`/`offset`
floats are modelled as rationals. -/
structure Point where
  name : String := "unnamed"
  kind : String
  address : Int
  bit : Option Int := none
  bitfield : Option (Int × Int) := none
  enum : List (String × String) := []
  dataType : Option String := none
  scale : ℚ := 1
  offset : ℚ := 0
  unit : String := ""

/-- The success payloads and error strings that `read_point_decoded` can
return as its third tuple component. -/
inductive DecodeOut where
  | bitOut (kind : String) (off : Int) (raw_u16 : Nat) (bit : Int) (value : Nat)
  | bitfieldOut (kind : String) (off : Int) (raw_u16 : Nat) (start length : Int)
      (value : Nat) (label : Option String)
  | boolOut (kind : String) (off : Int) (value : Nat)
  | scaledOut (kind : String) (off : Int) (raw : Int) (raw_u16 : Nat)
      (scaled : ℚ) (unit : String) (scale offset : ℚ)
  | err (msg : String)
  deriving DecidableEq

/-- Result of `read_point_decoded`: either the `(name, ok, out)` return
tuple, or a propagated `ModbusIOException`. -/
inductive DecodeResult where
  | ret (name : String) (ok : Bool) (out : DecodeOut)
  | ioError
  deriving DecidableEq

/-- Embedding of `read_point_decoded(client, p, device_id, niagara)`.
Besides the return value, the second component logs every `(kind, offset)`
read actually issued to the session, in order. -/
def read_point_decoded (client : Client) (p : Point) (niagara : Bool) :
    DecodeResult × List (String × Int) :=
  let name := p.name
  let kind0 := lowerStr p.kind
  let kind1 := if kind0 = "coil" then "coils" else kind0
  let kind2 := if kind1 = "discrete_input" then "discrete" else kind1
  let ko := normalize_address kind2 p.address niagara
  let kind := ko.1
  let off := ko.2
  if (kind = "holding" ∨ kind = "input") ∧ (p.bit.isSome ∨ p.bitfield.isSome) then
    match client kind off 1 with
    | .fault msg => (.ret name false (.err msg), [(kind, off)])
    | .noResponse => (.ioError, [(kind, off)])
    | .bits _ => (.ret name false (.err "response type mismatch"), [(kind, off)])
    | .regs vals =>
      let raw := vals.headD 0
      match p.bit with
      | some b =>
        if ¬ (0 ≤ b ∧ b ≤ 15) then
          (.ret name false
            (.err ("invalid bit index " ++ toString b ++ " (must be 0..15)")),
           [(kind, off)])
        else
          (.ret name true (.bitOut kind off raw b (get_bit raw b.toNat)),
           [(kind, off)])
      | none =>
        match p.bitfield with
        | some sl =>
          let start := sl.1
          let length := sl.2
          if ¬ (0 ≤ start ∧ start ≤ 15) ∨ ¬ (1 ≤ length ∧ length ≤ 16) ∨
              start + length > 16 then
            (.ret name false
              (.err ("invalid bitfield start=" ++ toString start ++ " len=" ++
                toString length ++ " (must fit in 0..15)")),
             [(kind, off)])
          else
            let val := get_bitfield raw start.toNat length.toNat
            let label := p.enum.lookup (toString val)
            (.ret name true (.bitfieldOut kind off raw start length val label),
             [(kind, off)])
        | none => (.ret name false (.err "unreachable"), [(kind, off)])
  else if kind = "coils" ∨ kind = "discrete" then
    match client kind off 1 with
    | .fault msg => (.ret name false (.err msg), [(kind, off)])
    | .noResponse => (.ioError, [(kind, off)])
    | .regs _ => (.ret name false (.err "response type mismatch"), [(kind, off)])
    | .bits bs =>
      (.ret name true (.boolOut kind off (if bs.headD false then 1 else 0)),
       [(kind, off)])
  else if kind = "holding" ∨ kind = "input" then
    match client kind off 1 with
    | .fault msg => (.ret name false (.err msg), [(kind, off)])
    | .noResponse => (.ioError, [(kind, off)])
    | .bits _ => (.ret name false (.err "response type mismatch"), [(kind, off)])
    | .regs vals =>
      let raw_u16 := vals.headD 0
      let dt := lowerStr (p.dataType.getD "uint16")
      let raw : Int := if dt = "int16" then to_int16 raw_u16
        else (to_uint16 raw_u16 : Int)
      let human : ℚ := (raw : ℚ) * p.scale + p.offset
      (.ret name true (.scaledOut kind off raw raw_u16 human p.unit p.scale p.offset),
       [(kind, off)])
  else
    (.ret name false (.err "Unsupported point definition"), [])

/-- Environment of one `probe_modbus` call: whether the bare TCP check
succeeds, whether `connect()` succeeds, and the response to the sentinel
`read_holding_registers(0, count=1)`. -/
structure ProbeEnv where
  tcpOpen : Bool
  connectOk : Bool
  hr0 : Resp

/-- The `{ok, note-or-error}` dictionary `probe_modbus` returns. -/
structure ProbeOut where
  ok : Bool
  msg : String
  deriving DecidableEq

/-- Embedding of `probe_modbus(host, port, device_id, timeout)`; `none`
models the Python `None` returned when the TCP check fails. -/
def probe_modbus (env : ProbeEnv) : Option ProbeOut :=
  if ¬ env.tcpOpen then none
  else if ¬ env.connectOk then some ⟨false, "connect failed"⟩
  else
    match env.hr0 with
    | .noResponse => some ⟨false, "no response"⟩
    | .fault m => some ⟨true, "responds but HR0 err: " ++ m⟩
    | _ => some ⟨true, "responds"⟩

/-- Acceptance test `main` applies to each probe result: skip `None`
results, accept exactly when `res["ok"]` is true. -/
def accepted (env : ProbeEnv) : Bool :=
  match probe_modbus env with
  | none => false
  | some r => r.ok

/-- The kind list `discover_readable` sweeps, in declared order. -/
def kindsFor (mode : String) : List String :=
  if mode = "both" then ["holding", "input"]
  else if mode = "all" then ["holding", "input", "coils", "discrete"]
  else [mode]

/-- Update the entry for key `k` in an association list, modelling the
in-place dict updates `hits[k].append(addr)` and `errors[k] += 1`. -/
def assocUpdate (l : List (String × α)) (k : String) (f : α → α) :
    List (String × α) :=
  l.map fun kv => if kv.1 = k then (kv.1, f kv.2) else kv

/-- Truthiness test `stop_after_hits and total_hits >= stop_after_hits`
(`None` and `0` are both falsy in Python). -/
def capReached : Option Nat → Nat → Bool
  | none, _ => false
  | some n, total => decide (n ≠ 0 ∧ n ≤ total)

/-- Outcome of the inner `for k in kinds` loop body at one block-start
address: fall through to the next address, return early because the hit
cap was reached, or abort because of a `ModbusIOException`. -/
inductive InnerOut where
  | next (hits : List (String × List Int)) (errors : List (String × Nat))
      (total : Nat)
  | capped (hits : List (String × List Int)) (errors : List (String × Nat))
  | aborted (msg : String)
  deriving DecidableEq

/-- Embedding of the inner `for k in kinds` loop of `discover_readable` at
one address; the second component logs every `(kind, address)` read issued. -/
def innerLoop (client : Client) (addr blockStep : Int) (cap : Option Nat) :
    List String → List (String × List Int) → List (String × Nat) → Nat →
    InnerOut × List (String × Int)
  | [], hits, errors, total => (.next hits errors total, [])
  | k :: ks, hits, errors, total =>
    match client k addr blockStep with
    | .noResponse => (.aborted "no response (timeout) during discovery", [(k, addr)])
    | .fault _ =>
      let r := innerLoop client addr blockStep cap ks hits
        (assocUpdate errors k (· + 1)) total
      (r.1, (k, addr) :: r.2)
    | _ =>
      let hits1 := assocUpdate hits k (· ++ [addr])
      let total1 := total + 1
      if capReached cap total1 then (.capped hits1 errors, [(k, addr)])
      else
        let r := innerLoop client addr blockStep cap ks hits1 errors total1
        (r.1, (k, addr) :: r.2)

/-- The dictionary `discover_readable` returns: `{"ok": True, hits, errors}`
or `{"ok": False, "error": msg}`. -/
inductive DiscoverResult where
  | ok (hits : List (String × List Int)) (errors : List (String × Nat))
  | failed (error : String)
  deriving DecidableEq

/-- Embedding of the `while addr <= end` loop of `discover_readable`,
fuelled; the fuel passed by `discover_readable` strictly exceeds the
number of iterations whenever the step is positive. -/
def discoverLoop (client : Client) (blockStep endAddr : Int) (cap : Option Nat)
    (kinds : List String) :
    Nat → Int → List (String × List Int) → List (String × Nat) → Nat →
    DiscoverResult × List (String × Int)
  | 0, _, hits, errors, _ => (.ok hits errors, [])
  | fuel + 1, addr, hits, errors, total =>
    if addr > endAddr then (.ok hits errors, [])
    else
      match innerLoop client addr blockStep cap kinds hits errors total with
      | (.aborted msg, log) => (.failed msg, log)
      | (.capped hits1 errors1, log) => (.ok hits1 errors1, log)
      | (.next hits1 errors1 total1, log) =>
        let r := discoverLoop client blockStep endAddr cap kinds fuel
          (addr + blockStep) hits1 errors1 total1
        (r.1, log ++ r.2)

/-- Embedding of `discover_readable(host, port, device_id, mode, start, end,
step, timeout, stop_after_hits)`; `connectOk` models `c.connect()` and the
second component logs every read issued. -/
def discover_readable (client : Client) (connectOk : Bool) (mode : String)
    (start endAddr blockStep : Int) (cap : Option Nat) :
    DiscoverResult × List (String × Int) :=
  let kinds := kindsFor mode
  let hits := kinds.map fun k => (k, ([] : List Int))
  let errors := kinds.map fun k => (k, (0 : Nat))
  if ¬ connectOk then (.failed "connect failed", [])
  else
    let fuel := (endAddr - start).toNat / blockStep.toNat + 2
    discoverLoop client blockStep endAddr cap kinds fuel start hits errors 0

/-- Invalid packed-bit point used to exercise the definition-error path. -/
def pt2 : Point :=
  { name := "AlarmPacked", kind := "holding", address := 20, bit := some 16 }

/-- Session oracle whose register reads all succeed with word 0. -/
def cl2 : Client := fun _ _ _ => Resp.regs [0]

/-- Point carrying both a packed-bit index and a bitfield descriptor. -/
def pt3 : Point :=
  { name := "X", kind := "holding", address := 2, bit := some 0,
    bitfield := some (4, 3), enum := [("3", "high")] }

/-- Session oracle whose register reads all succeed with word 48. -/
def cl3 : Client := fun _ _ _ => Resp.regs [48]

/-- Session oracle whose register reads all succeed with word `0xFFFF`. -/
def cl4 : Client := fun _ _ _ => Resp.regs [65535]

/-- Scaled int16 point with scale 2, offset 3. -/
def pt4 : Point :=
  { name := "T", kind := "holding", address := 3, dataType := some "int16",
    scale := 2, offset := 3 }

/-- Bitfield-enum point: start 4, length 3, enum mapping `3 ↦ "high"`. -/
def pt7 : Point :=
  { name := "FanMode", kind := "holding", address := 5,
    bitfield := some (4, 3), enum := [("3", "high")] }

/-- Session oracle whose register reads all succeed with word 8. -/
def cl8 : Client := fun _ _ _ => Resp.regs [8]

/-- Packed-bit point reading bit 3. -/
def pt8 : Point :=
  { name := "AlarmBit", kind := "holding", address := 19, bit := some 3 }

/-- Session oracle that never replies (transport timeout on every read). -/
def cl5 : Client := fun _ _ _ => Resp.noResponse

/-- Session oracle whose reads all succeed with word 7. -/
def cl6 : Client := fun _ _ _ => Resp.regs [7]

theorem discoverLoop_succ (client : Client) (blockStep endAddr : Int)
    (cap : Option Nat) (kinds : List String) (fuel : Nat) (addr : Int)
    (hits : List (String × List Int)) (errors : List (String × Nat))
    (total : Nat) :
    discoverLoop client blockStep endAddr cap kinds (fuel + 1) addr hits
        errors total =
      if addr > endAddr then (.ok hits errors, [])
      else
        match innerLoop client addr blockStep cap kinds hits errors total with
        | (.aborted msg, log) => (.failed msg, log)
        | (.capped hits1 errors1, log) => (.ok hits1 errors1, log)
        | (.next hits1 errors1 total1, log) =>
          ((discoverLoop client blockStep endAddr cap kinds fuel
              (addr + blockStep) hits1 errors1 total1).1,
           log ++ (discoverLoop client blockStep endAddr cap kinds fuel
              (addr + blockStep) hits1 errors1 total1).2) := rfl

theorem and_ffff_of_le (w : Nat) (hw : w ≤ 65535) : w &&& 0xFFFF = w := by
  have h : (0xFFFF : Nat) = 2 ^ 16 - 1 := by norm_num
  rw [h, Nat.and_pow_two_sub_one_eq_mod]
  exact Nat.mod_eq_of_lt (by omega)

theorem and_8000_iff (w : Nat) (hw : w ≤ 65535) :
    (w &&& 0x8000 ≠ 0) ↔ 32768 ≤ w := by
  have h : (0x8000 : Nat) = 2 ^ 15 := by norm_num
  rw [h, Nat.and_two_pow, Nat.testBit_to_div_mod]
  have h2 : (2 : Nat) ^ 15 = 32768 := by norm_num
  rw [h2]
  constructor
  · intro hne
    by_contra hlt
    push_neg at hlt
    have hz : w / 32768 = 0 := Nat.div_eq_of_lt hlt
    simp [hz] at hne
  · intro hge
    have ho : w / 32768 = 1 := by omega
    simp [ho]

theorem to_int16_eq (w : Nat) (hw : w ≤ 65535) :
    to_int16 w = if w < 32768 then (w : Int) else (w : Int) - 65536 := by
  have hmask := and_ffff_of_le w hw
  have hbit := and_8000_iff w hw
  simp only [to_int16, hmask]
  by_cases hlt : w < 32768
  · have hz : ¬ (w &&& 0x8000 ≠ 0) := by rw [hbit]; omega
    simp [hz, hlt]
  · have ho : w &&& 0x8000 ≠ 0 := by rw [hbit]; omega
    simp [ho, hlt]

theorem to_uint16_eq (w : Nat) (hw : w ≤ 65535) : to_uint16 w = w :=
  and_ffff_of_le w hw

theorem get_bit_eq (v b : Nat) : get_bit v b = v / 2 ^ b % 2 := by
  unfold get_bit
  rw [Nat.and_one_is_mod, Nat.shiftRight_eq_div_pow]
  rcases Nat.mod_two_eq_zero_or_one (v / 2 ^ b) with h | h <;> simp [h]

theorem get_bitfield_eq (v s l : Nat) :
    get_bitfield v s l = v / 2 ^ s % 2 ^ l := by
  unfold get_bitfield
  rw [Nat.one_shiftLeft, Nat.and_pow_two_sub_one_eq_mod,
    Nat.shiftRight_eq_div_pow]

/-- C1: with normalization enabled, `normalize_address` subtracts the band
base for each in-band display address — `holding 40001+k ↦ k`,
`input 30001+k ↦ k`, `discrete 10001+k ↦ k`, `coils 1+k ↦ k` for every
`k ∈ [0, 9998]` — and every coil address outside the band `1..9999`
passes through unchanged. -/
theorem C1_normalize_invertible (k : Int) (hk : 0 ≤ k ∧ k ≤ 9998) :
    normalize_address "holding" (40001 + k) true = ("holding", k) ∧
    normalize_address "input" (30001 + k) true = ("input", k) ∧
    normalize_address "discrete" (10001 + k) true = ("discrete", k) ∧
    normalize_address "coils" (1 + k) true = ("coils", k) ∧
    ∀ a : Int, (a < 1 ∨ a > 9999) →
      normalize_address "coils" a true = ("coils", a) := by
  obtain ⟨h0, h1⟩ := hk
  refine ⟨?_, ?_, ?_, ?_, fun a ha => ?_⟩ <;>
    (simp [normalize_address]; omega)

/-- C1 witness: instantiation at `k = 7` and at the out-of-band coil
address `10000`. -/
theorem C1_normalize_invertible_witness :
    normalize_address "holding" 40008 true = ("holding", 7) ∧
    normalize_address "coils" 10000 true = ("coils", 10000) := by
  constructor
  · have h := (C1_normalize_invertible 7 (by norm_num)).1
    norm_num at h
    exact h
  · exact (C1_normalize_invertible 0 (by norm_num)).2.2.2.2 10000 (by norm_num)

/-- C10: coil normalization is not injective — display addresses 0
(out-of-band pass-through) and 1 (in-band) both map to wire offset 0 —
while every coil display address above 9999 maps to itself and hence
never lands in the in-band image `[0, 9998]`. -/
theorem C10_coils_collision (a : Int) (ha : a > 9999) :
    normalize_address "coils" 0 true = ("coils", 0) ∧
    normalize_address "coils" 1 true = ("coils", 0) ∧
    (0 : Int) ≠ 1 ∧
    normalize_address "coils" a true = ("coils", a) ∧
    ¬ (0 ≤ (normalize_address "coils" a true).2 ∧
       (normalize_address "coils" a true).2 ≤ 9998) := by
  have hpass : normalize_address "coils" a true = ("coils", a) := by
    simp [normalize_address]
    omega
  refine ⟨by simp [normalize_address], by simp [normalize_address],
    by norm_num, hpass, ?_⟩
  rw [hpass]
  dsimp
  omega

/-- C10 witness: instantiation at `a = 10000`. -/
theorem C10_coils_collision_witness :
    normalize_address "coils" 10000 true = ("coils", 10000) ∧
    normalize_address "coils" 1 true = ("coils", 0) := by
  have h := C10_coils_collision 10000 (by norm_num)
  exact ⟨h.2.2.2.1, h.2.1⟩

theorem decode_bit_valid (client : Client) (p : Point) (b : Int) (raw : Nat)
    (hkind : p.kind = "holding") (hbit : p.bit = some b)
    (hb : 0 ≤ b ∧ b ≤ 15)
    (hresp : client "holding" p.address 1 = .regs [raw]) :
    read_point_decoded client p false =
      (.ret p.name true (.bitOut "holding" p.address raw b (get_bit raw b.toNat)),
       [("holding", p.address)]) := by
  have htl : lowerStr "holding" = "holding" := by decide
  simp [read_point_decoded, hkind, htl, normalize_address, hbit, hresp, hb]

theorem decode_bit_invalid (client : Client) (p : Point) (b : Int)
    (vals : List Nat) (hkind : p.kind = "holding") (hbit : p.bit = some b)
    (hb : ¬ (0 ≤ b ∧ b ≤ 15))
    (hresp : client "holding" p.address 1 = .regs vals) :
    read_point_decoded client p false =
      (.ret p.name false
         (.err ("invalid bit index " ++ toString b ++ " (must be 0..15)")),
       [("holding", p.address)]) := by
  have htl : lowerStr "holding" = "holding" := by decide
  simp [read_point_decoded, hkind, htl, normalize_address, hbit, hresp, hb]

theorem decode_bitfield_valid (client : Client) (p : Point) (s l : Int)
    (raw : Nat) (hkind : p.kind = "holding") (hbit : p.bit = none)
    (hbf : p.bitfield = some (s, l))
    (hs : 0 ≤ s ∧ s ≤ 15) (hl : 1 ≤ l ∧ l ≤ 16) (hsl : s + l ≤ 16)
    (hresp : client "holding" p.address 1 = .regs [raw]) :
    read_point_decoded client p false =
      (.ret p.name true (.bitfieldOut "holding" p.address raw s l
          (get_bitfield raw s.toNat l.toNat)
          (p.enum.lookup (toString (get_bitfield raw s.toNat l.toNat)))),
       [("holding", p.address)]) := by
  have htl : lowerStr "holding" = "holding" := by decide
  simp [read_point_decoded, hkind, htl, normalize_address, hbit, hbf, hresp,
    hs, hl]
  omega

theorem decode_bitfield_invalid (client : Client) (p : Point) (s l : Int)
    (vals : List Nat) (hkind : p.kind = "holding") (hbit : p.bit = none)
    (hbf : p.bitfield = some (s, l))
    (hbad : ¬ (0 ≤ s ∧ s ≤ 15) ∨ ¬ (1 ≤ l ∧ l ≤ 16) ∨ s + l > 16)
    (hresp : client "holding" p.address 1 = .regs vals) :
    read_point_decoded client p false =
      (.ret p.name false
         (.err ("invalid bitfield start=" ++ toString s ++ " len=" ++
           toString l ++ " (must fit in 0..15)")),
       [("holding", p.address)]) := by
  have htl : lowerStr "holding" = "holding" := by decide
  simp [read_point_decoded, hkind, htl, normalize_address, hbit, hbf, hresp]
  intro h1 h2 h3 h4
  omega

theorem decode_scaled (client : Client) (p : Point) (w : Nat)
    (hkind : p.kind = "holding") (hbit : p.bit = none) (hbf : p.bitfield = none)
    (hresp : client "holding" p.address 1 = .regs [w]) :
    read_point_decoded client p false =
      (.ret p.name true (.scaledOut "holding" p.address
          (if lowerStr (p.dataType.getD "uint16") = "int16" then to_int16 w
           else (to_uint16 w : Int))
          w
          (((if lowerStr (p.dataType.getD "uint16") = "int16" then to_int16 w
             else (to_uint16 w : Int)) : ℚ) * p.scale + p.offset)
          p.unit p.scale p.offset),
       [("holding", p.address)]) := by
  have htl : lowerStr "holding" = "holding" := by decide
  simp [read_point_decoded, hkind, htl, normalize_address, hbit, hbf, hresp]

/-- C2 counterexample: for the point `{kind: holding, address: 20, bit: 16}`
(bit index outside `[0,15]`), the decoder does report a definition error,
but its read log is nonempty — one read was issued to the Protocol Session
before validation, refuting "no I/O is performed for such a point". -/
theorem C2_counterexample :
    (read_point_decoded cl2 pt2 false).1 =
      .ret "AlarmPacked" false (.err "invalid bit index 16 (must be 0..15)") ∧
    (read_point_decoded cl2 pt2 false).2 = [("holding", 20)] := by
  decide

/-- C2 amended: for a register-space point whose packed-bit index lies
outside `[0,15]`, or whose bitfield start/length do not fit within 16 bits,
the decoder reports the definition error — but only after issuing the
single register read: exactly one read is performed for such a point. -/
theorem C2_definition_error_after_read (client : Client) (p : Point)
    (hkind : p.kind = "holding") :
    (∀ b vals, p.bit = some b → ¬ (0 ≤ b ∧ b ≤ 15) →
      client "holding" p.address 1 = .regs vals →
      read_point_decoded client p false =
        (.ret p.name false
           (.err ("invalid bit index " ++ toString b ++ " (must be 0..15)")),
         [("holding", p.address)])) ∧
    (∀ s l vals, p.bit = none → p.bitfield = some (s, l) →
      (¬ (0 ≤ s ∧ s ≤ 15) ∨ ¬ (1 ≤ l ∧ l ≤ 16) ∨ s + l > 16) →
      client "holding" p.address 1 = .regs vals →
      read_point_decoded client p false =
        (.ret p.name false
           (.err ("invalid bitfield start=" ++ toString s ++ " len=" ++
             toString l ++ " (must fit in 0..15)")),
         [("holding", p.address)])) := by
  constructor
  · intro b vals hbit hb hresp
    exact decode_bit_invalid client p b vals hkind hbit hb hresp
  · intro s l vals hbit hbf hbad hresp
    exact decode_bitfield_invalid client p s l vals hkind hbit hbf hbad hresp

/-- C2 witness: the amended theorem applied to the concrete invalid point. -/
theorem C2_definition_error_after_read_witness :
    read_point_decoded cl2 pt2 false =
      (.ret "AlarmPacked" false (.err "invalid bit index 16 (must be 0..15)"),
       [("holding", 20)]) := by
  have h := (C2_definition_error_after_read cl2 pt2 rfl).1 16 [0] rfl
    (by norm_num) rfl
  rw [h]
  decide

/-- C3 counterexample: on a point carrying both `bit = 0` and
`bitfield = (4, 3)` with raw word 48, the decoder produces the packed-bit
output (value `(48 >> 0) & 1 = 0`), not the bitfield-enum output
(value 3, label "high") — so bit wins over bitfield, refuting the claim
that the bitfield-enum mode is selected. -/
theorem C3_counterexample :
    (read_point_decoded cl3 pt3 false).1 =
      .ret "X" true (.bitOut "holding" 2 48 0 0) ∧
    (read_point_decoded cl3 pt3 false).1 ≠
      .ret "X" true (.bitfieldOut "holding" 2 48 4 3 3 (some "high")) := by
  decide

/-- C3 amended: mode selection on register-space points is by field
presence with the packed-bit index winning over the bitfield descriptor,
and either winning over scaled-numeric; exactly one mode's decode is
applied per point (the three outcomes are distinct constructors). -/
theorem C3_mode_precedence (client : Client) (p : Point)
    (hkind : p.kind = "holding") :
    (∀ b raw, p.bit = some b → 0 ≤ b ∧ b ≤ 15 →
      client "holding" p.address 1 = .regs [raw] →
      (read_point_decoded client p false).1 =
        .ret p.name true
          (.bitOut "holding" p.address raw b (get_bit raw b.toNat))) ∧
    (∀ s l raw, p.bit = none → p.bitfield = some (s, l) →
      0 ≤ s ∧ s ≤ 15 → 1 ≤ l ∧ l ≤ 16 → s + l ≤ 16 →
      client "holding" p.address 1 = .regs [raw] →
      (read_point_decoded client p false).1 =
        .ret p.name true (.bitfieldOut "holding" p.address raw s l
          (get_bitfield raw s.toNat l.toNat)
          (p.enum.lookup (toString (get_bitfield raw s.toNat l.toNat))))) ∧
    (∀ raw, p.bit = none → p.bitfield = none →
      client "holding" p.address 1 = .regs [raw] →
      (read_point_decoded client p false).1 =
        .ret p.name true (.scaledOut "holding" p.address
          (if lowerStr (p.dataType.getD "uint16") = "int16" then to_int16 raw
           else (to_uint16 raw : Int))
          raw
          (((if lowerStr (p.dataType.getD "uint16") = "int16" then to_int16 raw
             else (to_uint16 raw : Int)) : ℚ) * p.scale + p.offset)
          p.unit p.scale p.offset)) := by
  refine ⟨fun b raw hbit hb hresp => ?_, fun s l raw hbit hbf hs hl hsl hresp => ?_,
    fun raw hbit hbf hresp => ?_⟩
  · rw [decode_bit_valid client p b raw hkind hbit hb hresp]
  · rw [decode_bitfield_valid client p s l raw hkind hbit hbf hs hl hsl hresp]
  · rw [decode_scaled client p raw hkind hbit hbf hresp]

/-- C3 witness: the amended precedence theorem applied to the concrete
point carrying both a bit index and a bitfield descriptor. -/
theorem C3_mode_precedence_witness :
    (read_point_decoded cl3 pt3 false).1 =
      .ret "X" true (.bitOut "holding" 2 48 0 0) := by
  have h := (C3_mode_precedence cl3 pt3 rfl).1 0 48 rfl (by norm_num) rfl
  rw [h]
  decide

/-- C4: scaled-numeric decode reinterprets the raw 16-bit word per
dataType before scaling — `int16` is two's complement (`w` below
`0x8000`, `w - 0x10000` at or above), `uint16` is the word itself; raw
`0xFFFF` gives `-1` as int16 and `65535` as uint16; and the decoded value
produced by `read_point_decoded` equals `raw * scale + offset`. -/
theorem C4_scaled_reinterpretation (w : Nat) (hw : w ≤ 65535) :
    to_int16 w = (if w < 32768 then (w : Int) else (w : Int) - 65536) ∧
    to_uint16 w = w ∧
    to_int16 65535 = -1 ∧
    to_uint16 65535 = 65535 ∧
    (∀ (client : Client) (p : Point),
      p.kind = "holding" → p.bit = none → p.bitfield = none →
      client "holding" p.address 1 = .regs [w] →
      read_point_decoded client p false =
        (.ret p.name true (.scaledOut "holding" p.address
            (if lowerStr (p.dataType.getD "uint16") = "int16" then to_int16 w
             else (to_uint16 w : Int))
            w
            (((if lowerStr (p.dataType.getD "uint16") = "int16" then to_int16 w
               else (to_uint16 w : Int)) : ℚ) * p.scale + p.offset)
            p.unit p.scale p.offset),
         [("holding", p.address)])) := by
  refine ⟨to_int16_eq w hw, to_uint16_eq w hw, by decide, by decide,
    fun client p hkind hbit hbf hresp => ?_⟩
  exact decode_scaled client p w hkind hbit hbf hresp

/-- C4 witness: at raw `0xFFFF` on an int16 point with scale 2 and
offset 3, the decoded point carries raw `-1` and scaled `-1 * 2 + 3 = 1`. -/
theorem C4_scaled_reinterpretation_witness :
    read_point_decoded cl4 pt4 false =
      (.ret "T" true (.scaledOut "holding" 3 (-1) 65535 1 "" 2 3),
       [("holding", 3)]) := by
  have h := (C4_scaled_reinterpretation 65535 (by norm_num)).2.2.2.2 cl4 pt4
    rfl rfl rfl rfl
  rw [h]
  have h1 : lowerStr "int16" = "int16" := by decide
  have h2 : to_int16 65535 = -1 := by decide
  norm_num [pt4, h1, h2]

/-- C7: bitfield-enum decode computes `(raw >> start) & ((1 << length) - 1)`
— equivalently `raw / 2^start % 2^length` — with raw 48, start 4,
length 3 giving 3; and the decoder attaches as label exactly the enum
mapping's entry for the decoded integer value. -/
theorem C7_bitfield_decode (v s l : Nat) :
    get_bitfield v s l = (v >>> s) &&& ((1 <<< l) - 1) ∧
    get_bitfield v s l = v / 2 ^ s % 2 ^ l ∧
    get_bitfield 48 4 3 = 3 ∧
    (∀ (client : Client) (p : Point) (s' l' : Int) (raw : Nat),
      p.kind = "holding" → p.bit = none → p.bitfield = some (s', l') →
      0 ≤ s' ∧ s' ≤ 15 → 1 ≤ l' ∧ l' ≤ 16 → s' + l' ≤ 16 →
      client "holding" p.address 1 = .regs [raw] →
      read_point_decoded client p false =
        (.ret p.name true (.bitfieldOut "holding" p.address raw s' l'
            (get_bitfield raw s'.toNat l'.toNat)
            (p.enum.lookup (toString (get_bitfield raw s'.toNat l'.toNat)))),
         [("holding", p.address)])) := by
  refine ⟨rfl, get_bitfield_eq v s l, by decide,
    fun client p s' l' raw hkind hbit hbf hs hl hsl hresp => ?_⟩
  exact decode_bitfield_valid client p s' l' raw hkind hbit hbf hs hl hsl hresp

/-- C7 witness: raw 48 with start 4, length 3 decodes to field value 3
and the enum label "high" is attached. -/
theorem C7_bitfield_decode_witness :
    read_point_decoded cl3 pt7 false =
      (.ret "FanMode" true (.bitfieldOut "holding" 5 48 4 3 3 (some "high")),
       [("holding", 5)]) := by
  have h := (C7_bitfield_decode 48 4 3).2.2.2 cl3 pt7 4 3 48 rfl rfl rfl
    (by norm_num) (by norm_num) (by norm_num) rfl
  rw [h]
  decide

/-- C8: packed-bit decode computes `(raw >> bit) & 1` — equivalently
`raw / 2^bit % 2`, always 0 or 1 — with raw 8 giving 1 at bit 3 and 0 at
bit 0; and the decoder outputs exactly `get_bit raw bit` for a valid
packed-bit point. -/
theorem C8_packed_bit_decode (v b : Nat) :
    get_bit v b = (v >>> b) &&& 1 ∧
    get_bit v b = v / 2 ^ b % 2 ∧
    (get_bit v b = 0 ∨ get_bit v b = 1) ∧
    get_bit 8 3 = 1 ∧
    get_bit 8 0 = 0 ∧
    (∀ (client : Client) (p : Point) (b' : Int) (raw : Nat),
      p.kind = "holding" → p.bit = some b' → 0 ≤ b' ∧ b' ≤ 15 →
      client "holding" p.address 1 = .regs [raw] →
      read_point_decoded client p false =
        (.ret p.name true
           (.bitOut "holding" p.address raw b' (get_bit raw b'.toNat)),
         [("holding", p.address)])) := by
  have heq : get_bit v b = v / 2 ^ b % 2 := get_bit_eq v b
  have hand : get_bit v b = (v >>> b) &&& 1 := by
    rw [heq, Nat.and_one_is_mod, Nat.shiftRight_eq_div_pow]
  refine ⟨hand, heq, ?_, by decide, by decide,
    fun client p b' raw hkind hbit hb hresp => ?_⟩
  · rw [heq]; omega
  · exact decode_bit_valid client p b' raw hkind hbit hb hresp

/-- C8 witness: raw 8 at bit 3 decodes to 1. -/
theorem C8_packed_bit_decode_witness :
    read_point_decoded cl8 pt8 false =
      (.ret "AlarmBit" true (.bitOut "holding" 19 8 3 1),
       [("holding", 19)]) := by
  have h := (C8_packed_bit_decode 8 3).2.2.2.2.2 cl8 pt8 3 8 rfl rfl
    (by norm_num) rfl
  rw [h]
  decide

/-- C5: at each probed block-start, a non-fault read records a hit for
that space and the sweep continues; a protocol fault increments that
space's error counter and the sweep continues; a transport no-response
aborts the whole discovery run immediately with a failed result, recording
no hit and incrementing no counter. -/
theorem C5_discovery_response_policy
    (client : Client) (blockStep endAddr : Int) (cap : Option Nat)
    (k : String) (ks : List String) (addr : Int)
    (hits : List (String × List Int)) (errors : List (String × Nat))
    (total : Nat) :
    (∀ vals, client k addr blockStep = .regs vals →
      innerLoop client addr blockStep cap (k :: ks) hits errors total =
        (if capReached cap (total + 1)
         then (InnerOut.capped (assocUpdate hits k (· ++ [addr])) errors,
           [(k, addr)])
         else
           ((innerLoop client addr blockStep cap ks
               (assocUpdate hits k (· ++ [addr])) errors (total + 1)).1,
            (k, addr) ::
              (innerLoop client addr blockStep cap ks
                (assocUpdate hits k (· ++ [addr])) errors (total + 1)).2))) ∧
    (∀ msg, client k addr blockStep = .fault msg →
      innerLoop client addr blockStep cap (k :: ks) hits errors total =
        ((innerLoop client addr blockStep cap ks hits
            (assocUpdate errors k (· + 1)) total).1,
         (k, addr) ::
           (innerLoop client addr blockStep cap ks hits
             (assocUpdate errors k (· + 1)) total).2)) ∧
    (client k addr blockStep = .noResponse →
      innerLoop client addr blockStep cap (k :: ks) hits errors total =
        (.aborted "no response (timeout) during discovery", [(k, addr)])) ∧
    (∀ fuel msg log, ¬ addr > endAddr →
      innerLoop client addr blockStep cap (k :: ks) hits errors total =
        (.aborted msg, log) →
      discoverLoop client blockStep endAddr cap (k :: ks) (fuel + 1) addr
        hits errors total = (.failed msg, log)) := by
  refine ⟨fun vals h => ?_, fun msg h => ?_, fun h => ?_,
    fun fuel msg log h1 h2 => ?_⟩
  · simp only [innerLoop, h]
  · simp only [innerLoop, h]
  · simp only [innerLoop, h]
  · simp only [discoverLoop, if_neg h1, h2]

/-- C5 witness: with a dead session, a two-space discovery sweep aborts at
the very first read with a failed result — one read logged, no hit, no
error count. -/
theorem C5_discovery_response_policy_witness :
    discoverLoop cl5 10 20 (some 30) ["holding", "input"] 3 0
      [("holding", []), ("input", [])] [("holding", 0), ("input", 0)] 0 =
      (.failed "no response (timeout) during discovery", [("holding", 0)]) := by
  have h := C5_discovery_response_policy cl5 10 20 (some 30) "holding"
    ["input"] 0 [("holding", []), ("input", [])]
    [("holding", 0), ("input", 0)] 0
  exact h.2.2.2 2 _ _ (by norm_num) (h.2.2.1 rfl)

/-- C6 counterexample: a discovery run over `[0,1]` with hit cap 1 stops
early (only one read logged) yet returns a `DiscoverResult` equal to that
of a full-range run over `[0,0]` with no cap — the capped result carries
no capped/partial flag and is not distinguishable from a completed one. -/
theorem C6_counterexample :
    (discover_readable cl6 true "holding" 0 1 1 (some 1)).1 =
      (discover_readable cl6 true "holding" 0 0 1 none).1 ∧
    (discover_readable cl6 true "holding" 0 1 1 (some 1)).2 =
      [("holding", 0)] := by
  decide

/-- C6 amended: when a positive hit cap is set, the sweep stops as soon as
the cumulative hit count reaches it — only the reads up to that point are
issued, whatever the remaining range — but the returned result is the
plain ok/hits/errors shape, carrying no capped/partial flag. -/
theorem C6_cap_stops_early_unflagged (client : Client) (endAddr : Int)
    (he : 0 ≤ endAddr) (vals : List Nat)
    (hresp : client "holding" 0 1 = .regs vals) :
    discover_readable client true "holding" 0 endAddr 1 (some 1) =
      (.ok [("holding", [0])] [("holding", 0)], [("holding", 0)]) := by
  have hinner : innerLoop client 0 1 (some 1) ["holding"]
      [("holding", [])] [("holding", 0)] 0 =
      (.capped [("holding", [0])] [("holding", 0)], [("holding", 0)]) := by
    simp only [innerLoop, hresp]
    norm_num [assocUpdate, capReached]
  simp [discover_readable, kindsFor]
  rw [discoverLoop_succ, if_neg (by omega : ¬ (0 : Int) > endAddr), hinner]

/-- C6 witness: the amended theorem at range `[0,5]` — one read, early ok. -/
theorem C6_cap_stops_early_unflagged_witness :
    discover_readable cl6 true "holding" 0 5 1 (some 1) =
      (.ok [("holding", [0])] [("holding", 0)], [("holding", 0)]) :=
  C6_cap_stops_early_unflagged cl6 5 (by norm_num) [7] rfl

/-- C9: a candidate is accepted iff the TCP reachability check succeeds,
the connection handshake completes, and the sentinel HoldingRegisters
offset-0 read does not time out; a protocol fault on that read still
counts as accepted, a reachability failure produces no result at all, and
a sentinel timeout produces rejection. -/
theorem C9_candidate_acceptance (env : ProbeEnv) :
    (accepted env = true ↔
      env.tcpOpen = true ∧ env.connectOk = true ∧
        env.hr0 ≠ Resp.noResponse) ∧
    (∀ m, env.tcpOpen = true → env.connectOk = true →
      env.hr0 = .fault m → accepted env = true) ∧
    (env.tcpOpen = false → probe_modbus env = none) ∧
    (env.hr0 = .noResponse → accepted env = false) := by
  obtain ⟨t, c, r⟩ := env
  refine ⟨?_, ?_, ?_, ?_⟩ <;> cases t <;> cases c <;> cases r <;>
    simp [accepted, probe_modbus]

/-- C9 witness: a reachable, connectable candidate whose sentinel read
returns a protocol fault is accepted. -/
theorem C9_candidate_acceptance_witness :
    accepted ⟨true, true, Resp.fault "IllegalDataAddress"⟩ = true :=
  (C9_candidate_acceptance ⟨true, true, Resp.fault "IllegalDataAddress"⟩).2.1
    "IllegalDataAddress" rfl rfl rfl

end GridGhost
